import Mathlib

/-!
# Verification of the SillyProxy TLS termination core

A shallow embedding, in Lean 4, of the Go functions of the SillyProxy
reverse proxy that the specification's claims concern:

* `returnCert` / `isSigAlgSupported` — the SNI- and cipher-suite-driven
  certificate selector;
* `loadCertMap` — loading the credential store from a Java-KeyStore
  archive, including the `default` alias validity check;
* `routeBuilder` and the query-string appending done by its caller
  `assignRoutes` — the backend URL builder;
* `buildRouteMap` — the route-table loader;
* `proxyHanlderMap.ServeHTTP` — host dispatch and the 403 response.

Go machine integers are modelled as `Nat` (cipher-suite code points) and
`Int` (the `int(T)` conversion in `routeBuilder`); Go maps are modelled
as association lists; fallible operations return `Except`/`Option`;
file-system and archive-decoding effects are modelled by the possible
outcomes the code distinguishes.
-/

namespace SillyProxy

/-! ## Data model: certificates, key algorithms, the credential store -/

/-- The algorithm family of a parsed private key, as distinguished by the
type switch in `parsePrivateKey` (part_001). -/
inductive KeyAlg where
  | rsa
  | ecdsa
  | dsa
  deriving DecidableEq, Repr

/-- Model of Go's `tls.Certificate` as built by `loadCertMap`: the DER
certificate chain (blobs modelled as opaque `Nat` identifiers) plus the
parsed private key.  The zero value `tls.Certificate{}` has an empty
chain and no private key. -/
structure Certificate where
  certificate : List Nat
  privateKey : Option KeyAlg
  deriving DecidableEq, Repr

/-- Model of the DER private-key blob of a keystore entry, abstracted by
which of the three parsers in `parsePrivateKey` accepts it and what key
type results.  An OpenSSL-format DSA key is accepted by none of the
three parsers; a PKCS#8 blob carries its own key type. -/
inductive KeyBlob where
  | pkcs1RSA
  | pkcs8 (alg : KeyAlg)
  | sec1EC
  | unparseable
  deriving DecidableEq, Repr

/-- `parsePrivateKey` (part_001): try PKCS#1 RSA, then PKCS#8 (accepting
only RSA and ECDSA), then SEC1 EC; error if all three fail. -/
def parsePrivateKey : KeyBlob → Except String KeyAlg
  | .pkcs1RSA => .ok .rsa
  | .pkcs8 .rsa => .ok .rsa
  | .pkcs8 .ecdsa => .ok .ecdsa
  | .pkcs8 _ => .error "tls: found unknown private key type in PKCS#8 wrapping"
  | .sec1EC => .ok .ecdsa
  | .unparseable => .error "tls: failed to parse private key"

/-- The process-wide mutable state that `loadCertMap` publishes into and
`returnCert` reads: the global `certMap` (a Go map, modelled as an
association list with most-recent insertion first) and the four default
slot globals of part_002. -/
structure SillyState where
  certMap : List (String × Certificate)
  ECDSAdefaultExists : Bool
  ECDSAdefault : Certificate
  RSAdefaultExists : Bool
  RSAdefault : Certificate
  deriving DecidableEq, Repr

/-- Go map lookup `certMap[k]` with the `, exists` form. -/
def mapLookup (m : List (String × Certificate)) (k : String) : Option Certificate :=
  match m.find? (fun p => p.1 = k) with
  | some p => some p.2
  | none => none

/-- Go map assignment `certMap[k] = v` (overwrite semantics). -/
def mapInsert (m : List (String × Certificate)) (k : String) (v : Certificate) :
    List (String × Certificate) :=
  (k, v) :: m.filter (fun p => ¬ p.1 = k)

/-- The initial global state: `certMap` freshly made, both default-slot
flags false, both default slots holding the zero `tls.Certificate{}`. -/
def initialState : SillyState :=
  { certMap := []
    ECDSAdefaultExists := false
    ECDSAdefault := { certificate := [], privateKey := none }
    RSAdefaultExists := false
    RSAdefault := { certificate := [], privateKey := none } }

/-- Go `strings.HasPrefix`, over the character list. -/
def startsWithChars : List Char → List Char → Bool
  | _, [] => true
  | [], _ :: _ => false
  | c :: s, p :: ps => c = p && startsWithChars s ps

/-- Go `strings.HasSuffix`, over the character list. -/
def endsWithChars (s p : List Char) : Bool :=
  startsWithChars s.reverse p.reverse

/-! ## Cipher-suite tables and `isSigAlgSupported` (part_002) -/

/-- `CiphersECDSA` exactly as listed in the source. -/
def CiphersECDSA : List Nat :=
  [0xC007, 0xC009, 0xC00A, 0xC023,
   0xC02B, 0xC02C, 0xCCA9, 0xC02D,
   0xC02E, 0xC024, 0xC025, 0xC026,
   0xC008]

/-- `CiphersRSA` exactly as listed in the source (duplicates kept). -/
def CiphersRSA : List Nat :=
  [0xc011, 0xc012, 0xc013, 0xc014,
   0xc02f, 0xc030, 0xC027, 0x009C,
   0x009D, 0x0035, 0x003C, 0xCCA8,
   0x002F, 0x000A, 0x0005, 0x003C,
   0xC027, 0xC028]

/-- `isSigAlgSupported` (part_002): the double loop returning true as
soon as some offered cipher suite occurs in the comparison list. -/
def isSigAlgSupported (cipherSuites ciphersListToCompare : List Nat) : Bool :=
  cipherSuites.any (fun cipher =>
    ciphersListToCompare.any (fun cipherToCompare => cipher = cipherToCompare))

/-! ## The certificate selector `returnCert` (part_002) -/

/-- The part of `tls.ClientHelloInfo` that `returnCert` inspects. -/
structure ClientHelloInfo where
  serverName : String
  cipherSuites : List Nat
  deriving DecidableEq, Repr

/-- The tail of `returnCert` after both host-specific branches: the two
default-slot branches, guarded by the `remoteSupports…` flags (`-1`
records that a host-specific entry existed but the client's suites did
not intersect the corresponding table), then the no-certificate error. -/
def returnCertDefaults (s : SillyState) (helloInfo : ClientHelloInfo)
    (remoteSupportsECDSA remoteSupportsRSA : Int) : Option Certificate :=
  if s.ECDSAdefaultExists ∧ remoteSupportsECDSA ≠ -1 ∧
      isSigAlgSupported helloInfo.cipherSuites CiphersECDSA then
    some s.ECDSAdefault
  else if s.RSAdefaultExists ∧ remoteSupportsRSA ≠ -1 ∧
      isSigAlgSupported helloInfo.cipherSuites CiphersRSA then
    some s.RSAdefault
  else
    none

/-- The middle of `returnCert`: the host-specific RSA branch. -/
def returnCertRSA (s : SillyState) (helloInfo : ClientHelloInfo)
    (aliasToLookFor : String) (remoteSupportsECDSA : Int) : Option Certificate :=
  match mapLookup s.certMap (aliasToLookFor ++ ":RSA") with
  | some rsa =>
    if isSigAlgSupported helloInfo.cipherSuites CiphersRSA then some rsa
    else returnCertDefaults s helloInfo remoteSupportsECDSA (-1)
  | none => returnCertDefaults s helloInfo remoteSupportsECDSA 0

/-- `returnCert` (part_002).  `none` models the
`No certificate to serve for …` error return. -/
def returnCert (s : SillyState) (helloInfo : ClientHelloInfo) : Option Certificate :=
  let aliasToLookFor : String :=
    if helloInfo.serverName = "" then "default" else helloInfo.serverName
  match mapLookup s.certMap (aliasToLookFor ++ ":ECDSA") with
  | some ecdsa =>
    if isSigAlgSupported helloInfo.cipherSuites CiphersECDSA then some ecdsa
    else returnCertRSA s helloInfo aliasToLookFor (-1)
  | none => returnCertRSA s helloInfo aliasToLookFor 0

/-! ## Loading the credential store: `loadCertMap` (part_001) -/

/-- One private-key entry of the decoded keystore: its alias, its
certificate chain, its PEM/DER private-key blob, and whether
`keyStore.GetPrivateKeyEntry` fails for it (integrity/decoding error). -/
structure KSEntry where
  aliasName : String
  certChain : List Nat
  privKeyBlob : KeyBlob
  fetchFails : Bool
  deriving DecidableEq, Repr

/-- The outcomes `loadCertMap` distinguishes before reaching the decoded
keystore: unreadable file, failed `keyStore.Load` (wrong password or
malformed stream), or a decoded entry list in alias-iteration order. -/
inductive ArchiveFile where
  | unreadable
  | loadFails
  | ok (entries : List KSEntry)
  deriving DecidableEq, Repr

/-- `aliasExists` (part_001): whether the keystore has a private-key
entry under the alias. -/
def aliasExists (entries : List KSEntry) (a : String) : Bool :=
  entries.any (fun e => e.aliasName = a)

/-- The per-alias loop of `loadCertMap`.  For each alias:
`GetPrivateKeyEntry` failure aborts the load with an error (earlier
iterations' publications remain); an empty certificate chain is only
logged; a private-key parse failure drops the entry with a warning;
otherwise the built certificate is published — into the `ECDSAdefault`
slot for a `default…`-prefixed alias ending in `:ECDSA`, into the
`RSAdefault` slot for any other `default…`-prefixed alias, and into
`certMap` otherwise. -/
def loadEntries : List KSEntry → SillyState → Except String Unit × SillyState
  | [], st => (.ok (), st)
  | e :: rest, st =>
    if e.fetchFails then
      (.error ("Failed to fetch a private key entry for alias " ++ e.aliasName), st)
    else if e.certChain = [] then
      loadEntries rest st
    else
      match parsePrivateKey e.privKeyBlob with
      | .error _ => loadEntries rest st
      | .ok alg =>
        let cert : Certificate := { certificate := e.certChain, privateKey := some alg }
        let st' : SillyState :=
          if startsWithChars e.aliasName.data "default".data then
            if endsWithChars e.aliasName.data ":ECDSA".data then
              { st with ECDSAdefaultExists := true, ECDSAdefault := cert }
            else
              { st with RSAdefaultExists := true, RSAdefault := cert }
          else
            { st with certMap := mapInsert st.certMap e.aliasName cert }
        loadEntries rest st'

/-- `loadCertMap` (part_001): open and decode the archive, check that at
least one of the three `default:…` aliases exists, then run the
per-alias loop.  The returned state is the global state after the call
(the Go function mutates the globals in place). -/
def loadCertMap (file : ArchiveFile) (st : SillyState) : Except String Unit × SillyState :=
  match file with
  | .unreadable => (.error "loadKeyStore failed with error: open failed", st)
  | .loadFails => (.error "loadKeyStore failed with error: load failed", st)
  | .ok entries =>
    if ¬ aliasExists entries "default:RSA" ∧ ¬ aliasExists entries "default:ECDSA" ∧
        ¬ aliasExists entries "default:DSA" then
      (.error "No certificate exists with \"default\" alias. Please load a cert with default alias into the keystore", st)
    else
      loadEntries entries st

/-! ## Route table loading: `buildRouteMap` (phmap.go) -/

/-- One element of a decoded `Route` JSON array (`[]interface{}` in Go):
a JSON string, a JSON number (`float64`; the claims concern integral
values, modelled as `Int`), or any other JSON value. -/
inductive RouteElement where
  | str (s : String)
  | num (n : Int)
  | other
  deriving DecidableEq, Repr

/-- `MethodPathMap` (phmap.go). -/
structure MethodPathMap where
  Method : String
  Path : String
  Route : List RouteElement
  deriving DecidableEq, Repr

/-- `HostMap` (phmap.go). -/
structure HostMap where
  Host : String
  MethodPathMaps : List MethodPathMap
  deriving DecidableEq, Repr

/-- `RouteMap` (phmap.go). -/
structure RouteMap where
  Routes : List HostMap
  deriving DecidableEq, Repr

/-- The outcomes `buildRouteMap` distinguishes for its input file:
unreadable, JSON that fails to decode into `RouteMap`, or a decoded
document. -/
inductive RouteMapFile where
  | unreadable
  | undecodable
  | decoded (rm : RouteMap)
  deriving DecidableEq, Repr

/-- `buildRouteMap` (phmap.go): open the file, JSON-decode it into the
`RouteMap`, and return it; there is no further validation. -/
def buildRouteMap : RouteMapFile → Except String RouteMap
  | .unreadable => .error "Error while opening routeMapFile"
  | .undecodable => .error "Error while decoding Json"
  | .decoded rm => .ok rm

/-! ## URL building: `url.PathEscape`, `routeBuilder` (assignroutes.go) -/

/-- UTF-8 encoding of one character, byte values as `Nat` (Go iterates
the string's bytes). -/
def utf8Bytes (c : Char) : List Nat :=
  let n := c.toNat
  if n < 0x80 then [n]
  else if n < 0x800 then
    [0xC0 ||| (n >>> 6), 0x80 ||| (n &&& 0x3F)]
  else if n < 0x10000 then
    [0xE0 ||| (n >>> 12), 0x80 ||| ((n >>> 6) &&& 0x3F), 0x80 ||| (n &&& 0x3F)]
  else
    [0xF0 ||| (n >>> 18), 0x80 ||| ((n >>> 12) &&& 0x3F),
     0x80 ||| ((n >>> 6) &&& 0x3F), 0x80 ||| (n &&& 0x3F)]

/-- Go `net/url.shouldEscape` in `encodePathSegment` mode: alphanumerics
and `-`, `_`, `.`, `~` are kept; of the RFC 3986 reserved characters,
only `/`, `;`, `,`, `?` are escaped; every other byte is escaped. -/
def shouldEscape (c : Nat) : Bool :=
  if (0x61 ≤ c ∧ c ≤ 0x7A) ∨ (0x41 ≤ c ∧ c ≤ 0x5A) ∨ (0x30 ≤ c ∧ c ≤ 0x39) then
    false
  else if c = 0x2D ∨ c = 0x5F ∨ c = 0x2E ∨ c = 0x7E then
    false
  else if c = 0x24 ∨ c = 0x26 ∨ c = 0x2B ∨ c = 0x2C ∨ c = 0x2F ∨ c = 0x3A ∨
      c = 0x3B ∨ c = 0x3D ∨ c = 0x3F ∨ c = 0x40 then
    c = 0x2F ∨ c = 0x3B ∨ c = 0x2C ∨ c = 0x3F
  else
    true

/-- The upper-case hex digit used by Go's `escape`. -/
def upperhex (n : Nat) : Char :=
  if n < 10 then Char.ofNat (0x30 + n) else Char.ofNat (0x41 + (n - 10))

/-- Go `net/url.PathEscape`: percent-encode each byte of the UTF-8
encoding that `shouldEscape` flags, with upper-case hex. -/
def pathEscape (s : String) : String :=
  String.mk ((s.data.flatMap utf8Bytes).flatMap (fun b =>
    if shouldEscape b then ['%', upperhex (b / 16), upperhex (b % 16)]
    else [Char.ofNat b]))

/-- Go `strings.TrimPrefix v "/"` guarded by `strings.HasPrefix v "/"`,
as `routeBuilder` applies it: drop one leading slash if present. -/
def stripSlash (v : String) : String :=
  match v.data with
  | '/' :: rest => String.mk rest
  | _ => v

/-- The possible results of `routeBuilder` in a total embedding: a built
URL; the URL accumulated so far together with the error message; or no
value at all, for the out-of-range slice index `ps[int(T)]` that makes
the Go function panic. -/
inductive BuildOutcome where
  | ok (url : String)
  | fail (url : String) (msg : String)
  | panic
  deriving DecidableEq, Repr

/-- The loop of `routeBuilder` (assignroutes.go), with the accumulated
`URL`.  `ps` is the matched parameters' `Value` list; a numeric template
element `T` is guarded by `len(ps) > int(T)` and then indexes
`ps[int(T)]`, which for a negative `T` is out of bounds (`.panic`). -/
def routeBuilderLoop (ps : List String) (url : String) :
    List RouteElement → BuildOutcome
  | [] => .ok url
  | .str t :: rest => routeBuilderLoop ps (url ++ stripSlash t) rest
  | .num t :: rest =>
    if (ps.length : Int) > t then
      if t < 0 then .panic
      else
        match ps[t.toNat]? with
        | some v => routeBuilderLoop ps (url ++ pathEscape (stripSlash v)) rest
        | none => .panic
    else
      .fail url ("routeBuilder failed! Inbound request has fewer than " ++
        toString t ++ " params")
  | .other :: rest =>
    let _ := rest
    .fail url "routeBuilder failed! Element neither string nor float64"

/-- `routeBuilder` (assignroutes.go): the loop starting from the empty
URL. -/
def routeBuilder (ps : List String) (route : List RouteElement) : BuildOutcome :=
  routeBuilderLoop ps "" route

/-- The URL the request handler registered by `assignRoutes` hands to
`http.NewRequest`: the `routeBuilder` result with the inbound request's
raw query string appended after `?` when non-empty; `none` when
`routeBuilder` returned an error (the handler responds 400) or, in this
total embedding, when it would panic. -/
def handlerURL (ps : List String) (route : List RouteElement)
    (rawQuery : String) : Option String :=
  match routeBuilder ps route with
  | .ok url => some (if ¬ rawQuery = "" then url ++ "?" ++ rawQuery else url)
  | .fail _ _ => none
  | .panic => none

/-! ## Host dispatch: `proxyHanlderMap.ServeHTTP` (phmap.go) -/

/-- The result of `ServeHTTP`: delegation to the registered handler
(handlers modelled as opaque `Nat` identifiers), or the 403 error
response with its status and body. -/
inductive ServeResult where
  | handled (handler : Nat)
  | errorResponse (status : Nat) (body : String)
  deriving DecidableEq, Repr

/-- `strings.Split(host, ":")[0]`: the host header truncated at the
first `:`. -/
def hostPart (host : String) : String :=
  String.mk (host.data.takeWhile (fun c => ¬ c = ':'))

/-- `proxyHanlderMap.ServeHTTP` (phmap.go): look up the handler under
the port-stripped host; if none is registered, respond 403 with the
diagnostic body, which interpolates the full `r.Host` value. -/
def serveHTTP (phMap : List (String × Nat)) (host : String) : ServeResult :=
  match (phMap.find? (fun p => p.1 = hostPart host)).map (·.2) with
  | some handler => .handled handler
  | none =>
    .errorResponse 403 ("Request Forbidden, this request for hostname: " ++
      host ++ " is in error. Please check your input")

/-! ## Specification-side selector (claim C1)

A second selector definition following the words of the claim, to be
compared with `returnCert` (which is translated from the source). -/

/-- The selection order as the claim states it: alias is the ServerName
(or `default` when empty); first the host-specific ECDSA entry if
present and the offered suites intersect the ECDSA table; else the
host-specific RSA entry likewise; else the default ECDSA entry —
skipped when a host-specific ECDSA entry existed but the suites did not
intersect the ECDSA table; else the default RSA entry, skipped
symmetrically; else the no-certificate error (`none`). -/
def returnCertClaimed (s : SillyState) (h : ClientHelloInfo) : Option Certificate :=
  let a : String := if h.serverName = "" then "default" else h.serverName
  let hostE := mapLookup s.certMap (a ++ ":ECDSA")
  let hostR := mapLookup s.certMap (a ++ ":RSA")
  let supE := isSigAlgSupported h.cipherSuites CiphersECDSA
  let supR := isSigAlgSupported h.cipherSuites CiphersRSA
  if hostE.isSome ∧ supE then hostE
  else if hostR.isSome ∧ supR then hostR
  else if s.ECDSAdefaultExists ∧ supE ∧ ¬ (hostE.isSome ∧ ¬ supE) then
    some s.ECDSAdefault
  else if s.RSAdefaultExists ∧ supR ∧ ¬ (hostR.isSome ∧ ¬ supR) then
    some s.RSAdefault
  else
    none

/-- C1: For every ClientHello, the certificate selector uses
alias = ServerName (or "default" when ServerName is empty) and returns
the first match in this order: the host-specific ECDSA entry if present
and the client's cipher suites intersect the ECDSA table; else the
host-specific RSA entry if present and the suites intersect the RSA
table; else the default ECDSA entry, skipped when a host-specific ECDSA
entry existed but the client's suites did not intersect the ECDSA
table; else the default RSA entry, skipped symmetrically; else it fails
with a no-certificate error. -/
theorem returnCert_follows_claimed_order (s : SillyState) (h : ClientHelloInfo) :
    returnCert s h = returnCertClaimed s h := by
  unfold returnCert returnCertClaimed returnCertRSA returnCertDefaults
  cases hE : mapLookup s.certMap
      ((if h.serverName = "" then "default" else h.serverName) ++ ":ECDSA") <;>
  cases hR : mapLookup s.certMap
      ((if h.serverName = "" then "default" else h.serverName) ++ ":RSA") <;>
  by_cases hsE : isSigAlgSupported h.cipherSuites CiphersECDSA <;>
  by_cases hsR : isSigAlgSupported h.cipherSuites CiphersRSA <;>
  simp [hE, hR, hsE, hsR]

/-- C2: if the selector returns a certificate `c`, then the client's
offered cipher-suite list intersects the cipher table for the signature
algorithm under whose alias or default slot `c` is stored: either the
suites intersect the ECDSA table and `c` sits under the host-specific
`…:ECDSA` alias or in the ECDSA default slot, or the suites intersect
the RSA table and `c` sits under `…:RSA` or in the RSA default slot. -/
theorem returnCert_suites_intersect_table (s : SillyState) (h : ClientHelloInfo)
    (c : Certificate) (hc : returnCert s h = some c) :
    (isSigAlgSupported h.cipherSuites CiphersECDSA = true ∧
      (mapLookup s.certMap
          ((if h.serverName = "" then "default" else h.serverName) ++ ":ECDSA") = some c ∨
        (s.ECDSAdefaultExists = true ∧ c = s.ECDSAdefault))) ∨
    (isSigAlgSupported h.cipherSuites CiphersRSA = true ∧
      (mapLookup s.certMap
          ((if h.serverName = "" then "default" else h.serverName) ++ ":RSA") = some c ∨
        (s.RSAdefaultExists = true ∧ c = s.RSAdefault))) := by
  unfold returnCert returnCertRSA returnCertDefaults at hc
  revert hc
  cases hE : mapLookup s.certMap
      ((if h.serverName = "" then "default" else h.serverName) ++ ":ECDSA") <;>
  cases hR : mapLookup s.certMap
      ((if h.serverName = "" then "default" else h.serverName) ++ ":RSA") <;>
  by_cases hsE : isSigAlgSupported h.cipherSuites CiphersECDSA <;>
  by_cases hsR : isSigAlgSupported h.cipherSuites CiphersRSA <;>
  simp [hE, hR, hsE, hsR] <;> intro hcc <;>
    (try split_ifs at hcc) <;> simp_all

/-- Witness for C2 at seed scenario 1: store holding
`example.com:ECDSA`, client offering `{0xC02B, 0x009C}`. -/
theorem returnCert_suites_intersect_table_witness :
    (isSigAlgSupported [0xC02B, 0x009C] CiphersECDSA = true ∧
      (mapLookup [("example.com:ECDSA", (⟨[1], some .ecdsa⟩ : Certificate))]
          ((if "example.com" = "" then "default" else "example.com") ++ ":ECDSA") =
          some ⟨[1], some .ecdsa⟩ ∨
        (false = true ∧ (⟨[1], some .ecdsa⟩ : Certificate) = ⟨[], none⟩))) ∨
    (isSigAlgSupported [0xC02B, 0x009C] CiphersRSA = true ∧
      (mapLookup [("example.com:ECDSA", (⟨[1], some .ecdsa⟩ : Certificate))]
          ((if "example.com" = "" then "default" else "example.com") ++ ":RSA") =
          some ⟨[1], some .ecdsa⟩ ∨
        (false = true ∧ (⟨[1], some .ecdsa⟩ : Certificate) = ⟨[], none⟩))) :=
  returnCert_suites_intersect_table
    ⟨[("example.com:ECDSA", ⟨[1], some .ecdsa⟩)], false, ⟨[], none⟩, false, ⟨[], none⟩⟩
    ⟨"example.com", [0xC02B, 0x009C]⟩ ⟨[1], some .ecdsa⟩ (by decide)

/-! ## DSA entries are never selectable (claim C4) -/

/-- No certificate reachable in the state carries a DSA private key. -/
def noDSAState (st : SillyState) : Prop :=
  (∀ p ∈ st.certMap, p.2.privateKey ≠ some KeyAlg.dsa) ∧
  st.ECDSAdefault.privateKey ≠ some KeyAlg.dsa ∧
  st.RSAdefault.privateKey ≠ some KeyAlg.dsa

lemma parsePrivateKey_ne_dsa (b : KeyBlob) (alg : KeyAlg)
    (h : parsePrivateKey b = .ok alg) : alg ≠ KeyAlg.dsa := by
  intro hdsa
  subst hdsa
  cases b with
  | pkcs1RSA => simp [parsePrivateKey] at h
  | pkcs8 a => cases a <;> simp [parsePrivateKey] at h
  | sec1EC => simp [parsePrivateKey] at h
  | unparseable => simp [parsePrivateKey] at h

lemma mapInsert_no_dsa (m : List (String × Certificate)) (k : String)
    (v : Certificate) (hm : ∀ p ∈ m, p.2.privateKey ≠ some KeyAlg.dsa)
    (hv : v.privateKey ≠ some KeyAlg.dsa) :
    ∀ p ∈ mapInsert m k v, p.2.privateKey ≠ some KeyAlg.dsa := by
  intro p hp
  unfold mapInsert at hp
  rcases List.mem_cons.mp hp with h | h
  · subst h; exact hv
  · exact hm p (List.mem_of_mem_filter h)

lemma loadEntries_preserves_noDSA (es : List KSEntry) :
    ∀ st : SillyState, noDSAState st → noDSAState (loadEntries es st).2 := by
  induction es with
  | nil => intro st h; exact h
  | cons e rest ih =>
    intro st h
    unfold loadEntries
    by_cases hf : e.fetchFails = true
    · simpa [hf] using h
    · simp only [hf, Bool.false_eq_true, if_false, if_neg]
      by_cases hcc : e.certChain = []
      · simp only [hcc, if_pos, if_true]
        exact ih st h
      · simp only [hcc, if_neg, if_false]
        cases hp : parsePrivateKey e.privKeyBlob with
        | error msg => exact ih st h
        | ok alg =>
          have halg : alg ≠ KeyAlg.dsa := parsePrivateKey_ne_dsa _ _ hp
          have hcert : (({ certificate := e.certChain, privateKey := some alg } :
              Certificate)).privateKey ≠ some KeyAlg.dsa := by
            simpa using halg
          by_cases hd : startsWithChars e.aliasName.data "default".data = true
          · by_cases hsuf : endsWithChars e.aliasName.data ":ECDSA".data = true
            · simp only [hd, hsuf, if_pos, if_true]
              exact ih _ ⟨h.1, hcert, h.2.2⟩
            · simp only [hd, hsuf, if_pos, if_neg, if_true, if_false]
              exact ih _ ⟨h.1, h.2.1, hcert⟩
          · simp only [hd, if_neg, if_false]
            exact ih _ ⟨mapInsert_no_dsa _ _ _ h.1 hcert, h.2.1, h.2.2⟩

lemma loadCertMap_preserves_noDSA (file : ArchiveFile) (st : SillyState)
    (h : noDSAState st) : noDSAState (loadCertMap file st).2 := by
  cases file with
  | unreadable => exact h
  | loadFails => exact h
  | ok entries =>
    unfold loadCertMap
    by_cases hdef : ¬ aliasExists entries "default:RSA" = true ∧
        ¬ aliasExists entries "default:ECDSA" = true ∧
        ¬ aliasExists entries "default:DSA" = true
    · simpa [hdef] using h
    · simp only [hdef, if_neg, if_false]
      exact loadEntries_preserves_noDSA entries st h

lemma mapLookup_mem (m : List (String × Certificate)) (k : String)
    (c : Certificate) (h : mapLookup m k = some c) : ∃ p ∈ m, p.2 = c := by
  unfold mapLookup at h
  cases hf : m.find? (fun p => p.1 = k) with
  | none => rw [hf] at h; exact absurd h (by simp)
  | some p =>
    rw [hf] at h
    exact ⟨p, List.mem_of_find?_eq_some hf, by simpa using h⟩

lemma returnCert_sources (s : SillyState) (h : ClientHelloInfo) (c : Certificate)
    (hc : returnCert s h = some c) :
    (∃ k, mapLookup s.certMap k = some c) ∨ c = s.ECDSAdefault ∨ c = s.RSAdefault := by
  unfold returnCert returnCertRSA returnCertDefaults at hc
  revert hc
  cases hE : mapLookup s.certMap
      ((if h.serverName = "" then "default" else h.serverName) ++ ":ECDSA") <;>
  cases hR : mapLookup s.certMap
      ((if h.serverName = "" then "default" else h.serverName) ++ ":RSA") <;>
  by_cases hsE : isSigAlgSupported h.cipherSuites CiphersECDSA <;>
  by_cases hsR : isSigAlgSupported h.cipherSuites CiphersRSA <;>
  simp [hE, hR, hsE, hsR] <;> intro hcc <;> (try split_ifs at hcc) <;>
  simp_all <;> first
  | (left; exact ⟨_, hE⟩)
  | (left; exact ⟨_, hR⟩)

lemma noDSAState_initialState : noDSAState initialState := by
  refine ⟨?_, ?_, ?_⟩ <;> simp [initialState]

/-- C4: for every store loaded (from the initial empty globals) out of an
archive containing an entry under alias `default:DSA` whose private key
is a DSA key, and for every ClientHello, the selector never returns that
DSA entry: every certificate it returns carries a non-DSA private key,
while the DSA entry's key is DSA. -/
theorem returnCert_never_returns_dsa_entry (entries : List KSEntry) (e : KSEntry)
    (hello : ClientHelloInfo) (c : Certificate)
    (hmem : e ∈ entries) (halias : e.aliasName = "default:DSA")
    (hkey : e.privKeyBlob = KeyBlob.pkcs8 KeyAlg.dsa)
    (hc : returnCert (loadCertMap (.ok entries) initialState).2 hello = some c) :
    c.privateKey ≠ some KeyAlg.dsa := by
  have hst : noDSAState (loadCertMap (.ok entries) initialState).2 :=
    loadCertMap_preserves_noDSA _ _ noDSAState_initialState
  rcases returnCert_sources _ _ _ hc with ⟨k, hk⟩ | hdef | hdef
  · rcases mapLookup_mem _ _ _ hk with ⟨p, hpmem, hpc⟩
    exact hpc ▸ hst.1 p hpmem
  · exact hdef ▸ hst.2.1
  · exact hdef ▸ hst.2.2

/-- Witness for C4: an archive with a `default:DSA` DSA-keyed entry and
a `default:RSA` entry; the selector returns the RSA default, whose key
is not DSA. -/
theorem returnCert_never_returns_dsa_entry_witness :
    (Certificate.mk [8] (some KeyAlg.rsa)).privateKey ≠ some KeyAlg.dsa :=
  returnCert_never_returns_dsa_entry
    [⟨"default:DSA", [7], .pkcs8 .dsa, false⟩, ⟨"default:RSA", [8], .pkcs1RSA, false⟩]
    ⟨"default:DSA", [7], .pkcs8 .dsa, false⟩
    ⟨"", [0x009C]⟩ ⟨[8], some KeyAlg.rsa⟩
    (by decide) rfl rfl rfl

/-! ## Archive validity: the default-alias check (claims C3, C8) -/

lemma loadEntries_ok_of_no_fetch_failure (es : List KSEntry) :
    ∀ st : SillyState, (∀ e ∈ es, e.fetchFails = false) →
      (loadEntries es st).1 = Except.ok () := by
  induction es with
  | nil => intro st _; rfl
  | cons e rest ih =>
    intro st h
    have hf : e.fetchFails = false := h e (List.mem_cons_self e rest)
    have hrest : ∀ x ∈ rest, x.fetchFails = false :=
      fun x hx => h x (List.mem_cons_of_mem e hx)
    unfold loadEntries
    simp only [hf, Bool.false_eq_true, if_false, if_neg]
    by_cases hcc : e.certChain = []
    · simp only [hcc, if_pos, if_true]; exact ih st hrest
    · simp only [hcc, if_neg, if_false]
      cases parsePrivateKey e.privKeyBlob with
      | error msg => exact ih st hrest
      | ok alg => exact ih _ hrest

/-- Counterexample to C3 as stated: a readable, correctly-passworded,
well-formed archive containing only a `default:DSA` entry — neither
`default:ECDSA` nor `default:RSA` is present — and yet `loadCertMap`
succeeds (the legacy `default:DSA` alias also satisfies the check). -/
theorem loadCertMap_dsa_only_archive_accepted :
    (loadCertMap (.ok [⟨"default:DSA", [7], .pkcs8 .dsa, false⟩]) initialState).1 =
      Except.ok () ∧
    aliasExists [⟨"default:DSA", [7], .pkcs8 .dsa, false⟩] "default:ECDSA" = false ∧
    aliasExists [⟨"default:DSA", [7], .pkcs8 .dsa, false⟩] "default:RSA" = false :=
  ⟨rfl, by decide, by decide⟩

/-- C3 (amended): loading a readable, correctly-passworded, well-formed
archive (no per-entry fetch failure) succeeds iff the archive contains
at least one of the aliases `default:RSA`, `default:ECDSA` or
`default:DSA`; otherwise the load returns an error and the published
state is unchanged. -/
theorem loadCertMap_accepts_iff_default_alias (entries : List KSEntry)
    (st : SillyState) (hwf : ∀ e ∈ entries, e.fetchFails = false) :
    ((loadCertMap (.ok entries) st).1 = Except.ok () ↔
      (aliasExists entries "default:RSA" = true ∨
        aliasExists entries "default:ECDSA" = true ∨
        aliasExists entries "default:DSA" = true)) ∧
    ((aliasExists entries "default:RSA" = false ∧
        aliasExists entries "default:ECDSA" = false ∧
        aliasExists entries "default:DSA" = false) →
      ∃ msg, loadCertMap (.ok entries) st = (Except.error msg, st)) := by
  unfold loadCertMap
  by_cases hdef : ¬ aliasExists entries "default:RSA" = true ∧
      ¬ aliasExists entries "default:ECDSA" = true ∧
      ¬ aliasExists entries "default:DSA" = true
  · simp only [hdef, if_pos, if_true]
    constructor
    · constructor
      · intro h; exact absurd h (by simp)
      · intro h; rcases h with h | h | h <;> simp_all
    · intro _; exact ⟨_, rfl⟩
  · simp only [hdef, if_neg, if_false]
    constructor
    · constructor
      · intro _
        by_cases h1 : aliasExists entries "default:RSA" = true
        · exact Or.inl h1
        · by_cases h2 : aliasExists entries "default:ECDSA" = true
          · exact Or.inr (Or.inl h2)
          · by_cases h3 : aliasExists entries "default:DSA" = true
            · exact Or.inr (Or.inr h3)
            · exact absurd ⟨h1, h2, h3⟩ hdef
      · intro _; exact loadEntries_ok_of_no_fetch_failure entries st hwf
    · intro ⟨h1, h2, h3⟩
      exact absurd ⟨by simp [h1], by simp [h2], by simp [h3]⟩ hdef

/-- Witness for C3 (amended) at an archive holding one `default:RSA`
entry. -/
theorem loadCertMap_accepts_iff_default_alias_witness :
    ((loadCertMap (.ok [⟨"default:RSA", [8], .pkcs1RSA, false⟩]) initialState).1 =
        Except.ok () ↔
      (aliasExists [⟨"default:RSA", [8], .pkcs1RSA, false⟩] "default:RSA" = true ∨
        aliasExists [⟨"default:RSA", [8], .pkcs1RSA, false⟩] "default:ECDSA" = true ∨
        aliasExists [⟨"default:RSA", [8], .pkcs1RSA, false⟩] "default:DSA" = true)) ∧
    ((aliasExists [⟨"default:RSA", [8], .pkcs1RSA, false⟩] "default:RSA" = false ∧
        aliasExists [⟨"default:RSA", [8], .pkcs1RSA, false⟩] "default:ECDSA" = false ∧
        aliasExists [⟨"default:RSA", [8], .pkcs1RSA, false⟩] "default:DSA" = false) →
      ∃ msg, loadCertMap (.ok [⟨"default:RSA", [8], .pkcs1RSA, false⟩]) initialState =
        (Except.error msg, initialState)) :=
  loadCertMap_accepts_iff_default_alias _ _ (by decide)

/-- Counterexample to C8 as stated: an archive whose first entry
(`host1:RSA`) loads fine and whose second entry (`default:RSA`) fails to
fetch.  The load fails, yet `host1:RSA` is now published where it was
not before — the reload is not all-or-nothing. -/
theorem loadCertMap_partial_publish_counterexample :
    (loadCertMap (.ok [⟨"host1:RSA", [5], .pkcs1RSA, false⟩,
        ⟨"default:RSA", [6], .pkcs1RSA, true⟩]) initialState).1 =
      Except.error "Failed to fetch a private key entry for alias default:RSA" ∧
    mapLookup (loadCertMap (.ok [⟨"host1:RSA", [5], .pkcs1RSA, false⟩,
        ⟨"default:RSA", [6], .pkcs1RSA, true⟩]) initialState).2.certMap "host1:RSA" =
      some ⟨[5], some KeyAlg.rsa⟩ ∧
    mapLookup initialState.certMap "host1:RSA" = none :=
  ⟨rfl, rfl, rfl⟩

/-- C8 (amended): a reload that fails before per-entry processing —
unreadable file, failed keystore load (wrong password or malformed
stream), or no `default:…` alias — returns an error and leaves the
published store exactly as it was.  (A mid-iteration per-entry fetch
failure, by contrast, can leave earlier entries published, as the
counterexample shows.) -/
theorem loadCertMap_preloop_failure_preserves_store (file : ArchiveFile)
    (st : SillyState)
    (h : file = ArchiveFile.unreadable ∨ file = ArchiveFile.loadFails ∨
      ∃ entries, file = ArchiveFile.ok entries ∧
        aliasExists entries "default:RSA" = false ∧
        aliasExists entries "default:ECDSA" = false ∧
        aliasExists entries "default:DSA" = false) :
    ∃ msg, loadCertMap file st = (Except.error msg, st) := by
  rcases h with h | h | ⟨entries, hfile, h1, h2, h3⟩
  · subst h; exact ⟨_, rfl⟩
  · subst h; exact ⟨_, rfl⟩
  · subst hfile
    unfold loadCertMap
    have : ¬ aliasExists entries "default:RSA" = true ∧
        ¬ aliasExists entries "default:ECDSA" = true ∧
        ¬ aliasExists entries "default:DSA" = true :=
      ⟨by simp [h1], by simp [h2], by simp [h3]⟩
    simp only [this, if_pos, if_true]
    exact ⟨_, rfl⟩

/-- Witness for C8 (amended): an unreadable archive leaves the initial
state unchanged. -/
theorem loadCertMap_preloop_failure_preserves_store_witness :
    ∃ msg, loadCertMap ArchiveFile.unreadable initialState =
      (Except.error msg, initialState) :=
  loadCertMap_preloop_failure_preserves_store _ _ (Or.inl rfl)

/-! ## URL builder claims (C5, C6, C10) -/

/-- A template element the builder consumes without failing or
panicking: a string, or an integer index within the bindings. -/
def elemOK (ps : List String) : RouteElement → Bool
  | .str _ => true
  | .num n => decide (0 ≤ n ∧ n < (ps.length : Int))
  | .other => false

/-- A template element on which the builder returns an error: an
integer failing the `len(ps) > int(T)` guard, or a non-string,
non-number element. -/
def failElem (ps : List String) : RouteElement → Bool
  | .str _ => false
  | .num n => decide (¬ ((ps.length : Int) > n))
  | .other => true

/-- What one in-range element contributes to the URL: a string element
verbatim minus one leading `/`; an integer element, the indexed
binding's value minus one leading `/`, percent-encoded for a URL path
segment. -/
def elemStr (ps : List String) : RouteElement → String
  | .str s => stripSlash s
  | .num n => pathEscape (stripSlash (ps.getD n.toNat ""))
  | .other => ""

/-- The in-order concatenation of the template elements' contributions
(the claim's specification of the built URL). -/
def concatElems (ps : List String) (route : List RouteElement) : String :=
  route.foldl (fun url e => url ++ elemStr ps e) ""

lemma routeBuilderLoop_ok (ps : List String) :
    ∀ (route : List RouteElement) (url : String),
      (∀ e ∈ route, elemOK ps e = true) →
      routeBuilderLoop ps url route =
        .ok (route.foldl (fun u e => u ++ elemStr ps e) url) := by
  intro route
  induction route with
  | nil => intro url _; rfl
  | cons e rest ih =>
    intro url h
    have hrest : ∀ x ∈ rest, elemOK ps x = true :=
      fun x hx => h x (List.mem_cons_of_mem e hx)
    have he : elemOK ps e = true := h e (List.mem_cons_self e rest)
    cases e with
    | str t =>
      unfold routeBuilderLoop
      rw [ih (url ++ stripSlash t) hrest]
      rfl
    | num n =>
      have hn : 0 ≤ n ∧ n < (ps.length : Int) := by
        simpa [elemOK] using he
      have hlt : n.toNat < ps.length := by omega
      have hguard : (ps.length : Int) > n := hn.2
      unfold routeBuilderLoop
      rw [if_pos hguard, if_neg (by omega : ¬ n < 0)]
      rw [List.getElem?_eq_getElem hlt]
      show routeBuilderLoop ps (url ++ pathEscape (stripSlash ps[n.toNat])) rest = _
      rw [ih (url ++ pathEscape (stripSlash ps[n.toNat])) hrest]
      simp [elemStr, List.getD_eq_getElem?_getD, List.getElem?_eq_getElem hlt]
    | other => simp [elemOK] at he

/-- C5: for every route template whose integer elements are all within
range of the bindings, the URL handed to the outbound request equals
the in-order concatenation of the elements' contributions (string
elements verbatim minus one leading `/`, integer elements replaced by
the percent-encoded binding value minus one leading `/`), with the raw
query string appended after `?` when non-empty. -/
theorem handlerURL_builds_claimed_concat (ps : List String)
    (route : List RouteElement) (rawQuery : String)
    (h : ∀ e ∈ route, elemOK ps e = true) :
    handlerURL ps route rawQuery =
      some (if rawQuery = "" then concatElems ps route
        else concatElems ps route ++ "?" ++ rawQuery) := by
  unfold handlerURL routeBuilder
  rw [routeBuilderLoop_ok ps route "" h]
  by_cases hq : rawQuery = "" <;> simp [hq, concatElems]

/-- Witness for C5 at seed scenario 4: template
`["https://www.", 0, ".com/", 1]`, bindings `["foo", "/bar/baz"]`, no
query; the built URL is `https://www.foo.com/bar%2Fbaz`. -/
theorem handlerURL_builds_claimed_concat_witness :
    handlerURL ["foo", "/bar/baz"]
      [.str "https://www.", .num 0, .str ".com/", .num 1] "" =
      some "https://www.foo.com/bar%2Fbaz" :=
  (handlerURL_builds_claimed_concat ["foo", "/bar/baz"]
    [.str "https://www.", .num 0, .str ".com/", .num 1] "" (by decide)).trans
    (by decide)

/-- Counterexample to C6 as stated: on the template
`["abc", 5]` with no bindings, the builder fails — but it returns the
non-empty URL `"abc"` built so far, not an empty URL. -/
theorem routeBuilder_fail_nonempty_url_counterexample :
    routeBuilder [] [.str "abc", .num 5] =
      .fail "abc" "routeBuilder failed! Inbound request has fewer than 5 params" ∧
    ¬ ("abc" = "") :=
  ⟨by decide, by decide⟩

lemma routeBuilderLoop_fail (ps : List String) :
    ∀ (route : List RouteElement) (url0 url msg : String),
      routeBuilderLoop ps url0 route = .fail url msg →
      ∃ pre e rest, route = pre ++ e :: rest ∧
        (∀ x ∈ pre, elemOK ps x = true) ∧ failElem ps e = true ∧
        url = pre.foldl (fun u x => u ++ elemStr ps x) url0 := by
  intro route
  induction route with
  | nil => intro url0 url msg h; simp [routeBuilderLoop] at h
  | cons e rest ih =>
    intro url0 url msg h
    cases e with
    | str t =>
      unfold routeBuilderLoop at h
      rcases ih (url0 ++ stripSlash t) url msg h with
        ⟨pre, e', rest', heq, hok, hfail, hurl⟩
      refine ⟨.str t :: pre, e', rest', by simp [heq], ?_, hfail, ?_⟩
      · intro x hx
        rcases List.mem_cons.mp hx with hx | hx
        · subst hx; rfl
        · exact hok x hx
      · simpa [elemStr] using hurl
    | num n =>
      unfold routeBuilderLoop at h
      by_cases hguard : (ps.length : Int) > n
      · rw [if_pos hguard] at h
        by_cases hneg : n < 0
        · rw [if_pos hneg] at h; exact absurd h (by simp)
        · rw [if_neg hneg] at h
          have hlt : n.toNat < ps.length := by omega
          rw [List.getElem?_eq_getElem hlt] at h
          have h' : routeBuilderLoop ps (url0 ++ pathEscape (stripSlash ps[n.toNat])) rest =
              BuildOutcome.fail url msg := h
          rcases ih (url0 ++ pathEscape (stripSlash ps[n.toNat])) url msg h' with
            ⟨pre, e', rest', heq, hok, hfail, hurl⟩
          refine ⟨.num n :: pre, e', rest', by simp [heq], ?_, hfail, ?_⟩
          · intro x hx
            rcases List.mem_cons.mp hx with hx | hx
            · subst hx; simp [elemOK]; omega
            · exact hok x hx
          · rw [hurl]
            simp [elemStr, List.getD_eq_getElem?_getD, List.getElem?_eq_getElem hlt]
      · rw [if_neg hguard] at h
        refine ⟨[], .num n, rest, rfl, by simp, by simp [failElem]; omega, ?_⟩
        simpa using (BuildOutcome.fail.injEq .. ▸ h).1.symm
    | other =>
      unfold routeBuilderLoop at h
      refine ⟨[], .other, rest, rfl, by simp, rfl, ?_⟩
      simpa using (BuildOutcome.fail.injEq .. ▸ h).1.symm

/-- C6 (amended): whenever the URL builder fails (an integer template
element failing the bounds guard, or an element that is neither a
string nor a number), it returns an error together with the URL built
so far — the concatenation for the elements preceding the failing one,
which need not be empty. -/
theorem routeBuilder_fail_returns_partial_url (ps : List String)
    (route : List RouteElement) (url msg : String)
    (h : routeBuilder ps route = .fail url msg) :
    ∃ pre e rest, route = pre ++ e :: rest ∧
      (∀ x ∈ pre, elemOK ps x = true) ∧ failElem ps e = true ∧
      url = concatElems ps pre := by
  rcases routeBuilderLoop_fail ps route "" url msg h with
    ⟨pre, e, rest, heq, hok, hfail, hurl⟩
  exact ⟨pre, e, rest, heq, hok, hfail, hurl⟩

/-- Witness for C6 (amended) at the counterexample's input. -/
theorem routeBuilder_fail_returns_partial_url_witness :
    ∃ pre e rest, ([.str "abc", .num 5] : List RouteElement) = pre ++ e :: rest ∧
      (∀ x ∈ pre, elemOK ([] : List String) x = true) ∧
      failElem ([] : List String) e = true ∧
      "abc" = concatElems ([] : List String) pre :=
  routeBuilder_fail_returns_partial_url [] [.str "abc", .num 5] "abc"
    "routeBuilder failed! Inbound request has fewer than 5 params" (by decide)

/-- C10: a route template with a negative numeric element passes the
bounds guard `len(ps) > int(T)` (here `0 > -1`), yet the index `-1` is
not a valid binding index, so in this total embedding the builder's
index access yields no value (`.panic`; the Go code panics). -/
theorem routeBuilder_negative_index_panics :
    ((([] : List String).length : Int) > -1 ∧ ¬ ((0 : Int) ≤ -1)) ∧
    routeBuilder [] [.num (-1)] = .panic :=
  ⟨by decide, by decide⟩

/-! ## Route table loader validation (claim C7) -/

/-- Counterexample to C7 as stated: a routing document with an empty
`Host` (and an empty `Method` and `Path` in its map) decodes fine, and
`buildRouteMap` accepts it — the loader performs no such validation. -/
theorem buildRouteMap_accepts_empty_host_counterexample :
    buildRouteMap (.decoded ⟨[⟨"", [⟨"", "", [.other]⟩]⟩]⟩) =
      Except.ok ⟨[⟨"", [⟨"", "", [.other]⟩]⟩]⟩ ∧
    (RouteMap.mk [⟨"", [⟨"", "", [.other]⟩]⟩]).Routes.any
      (fun hm => hm.Host = "") = true :=
  ⟨rfl, by decide⟩

/-- C7 (amended): `buildRouteMap` returns an error exactly for an
unreadable file or a JSON document that fails to decode into the
`RouteMap` shape; every successfully decoded document is accepted
unchanged, with no validation of `Host`, `Method`, `Path` or the
`Route` elements. -/
theorem buildRouteMap_no_content_validation :
    (∀ rm : RouteMap, buildRouteMap (.decoded rm) = Except.ok rm) ∧
    (∃ msg, buildRouteMap .unreadable = Except.error msg) ∧
    (∃ msg, buildRouteMap .undecodable = Except.error msg) :=
  ⟨fun _ => rfl, ⟨_, rfl⟩, ⟨_, rfl⟩⟩

/-! ## Host dispatch and the 403 response (claim C9) -/

/-- Counterexample to C9 as stated: for `Host: nope.invalid:8080` with
no registered handler, the 403 body interpolates the full header value
`nope.invalid:8080`, not the port-stripped host `nope.invalid` used for
the lookup. -/
theorem serveHTTP_full_host_in_body_counterexample :
    serveHTTP [] "nope.invalid:8080" = .errorResponse 403
      "Request Forbidden, this request for hostname: nope.invalid:8080 is in error. Please check your input" ∧
    hostPart "nope.invalid:8080" = "nope.invalid" ∧
    serveHTTP [] "nope.invalid:8080" ≠ .errorResponse 403
      ("Request Forbidden, this request for hostname: " ++
        hostPart "nope.invalid:8080" ++ " is in error. Please check your input") :=
  ⟨by decide, by decide, by decide⟩

/-- C9 (amended): the host used for handler lookup is the Host header
truncated at the first `:`; when no handler is registered for that
truncated host the response is 403 with the diagnostic body, which
interpolates the full Host header value (including any port), and when
a handler is registered the request is delegated to it. -/
theorem serveHTTP_dispatch (phMap : List (String × Nat)) (host : String) :
    (phMap.find? (fun p => p.1 = hostPart host) = none →
      serveHTTP phMap host = .errorResponse 403
        ("Request Forbidden, this request for hostname: " ++ host ++
          " is in error. Please check your input")) ∧
    (∀ p, phMap.find? (fun q => q.1 = hostPart host) = some p →
      serveHTTP phMap host = .handled p.2) := by
  constructor
  · intro h
    unfold serveHTTP
    rw [h]
    rfl
  · intro p hp
    unfold serveHTTP
    rw [hp]
    rfl

/-- Witness for C9 (amended): one registered host found via the
port-stripped lookup, and one unknown host answered 403. -/
theorem serveHTTP_dispatch_witness :
    serveHTTP [("a", 5)] "a:8080" = .handled 5 ∧
    serveHTTP [("a", 5)] "b" = .errorResponse 403
      ("Request Forbidden, this request for hostname: " ++ "b" ++
        " is in error. Please check your input") :=
  ⟨(serveHTTP_dispatch [("a", 5)] "a:8080").2 ("a", 5) (by decide),
    (serveHTTP_dispatch [("a", 5)] "b").1 (by decide)⟩

end SillyProxy
